import Mathlib

/-!
Shallow embedding of src/net/connection.go (package net of SuperMarioX/golib):
an event driven TCP engine with listener and client connection registries,
a shared error handler, a framed read loop driven by a pluggable IProto
capability, and a bounded event queue drained through PollEvent.

Sockets are modelled by oracles: a list of ReadRes values, one per call to
net.Conn.Read, each giving the bytes the socket delivered and the returned
error. Go slices are modelled by a shared backing array plus a slice
length, because the deletion loops of CloseListen and SimpleNetDestroy
mutate the backing array of the very slice they are ranging over.
-/

/-- Connection and listener status codes from connection.go: StatusNone,
StatusListenning, StatusConnected, StatusBroken. -/
inductive Status
  | statusNone
  | listenning
  | connected
  | broken
deriving Repr, DecidableEq

/-- Event kinds from connection.go: EventNone through EventTimeout. -/
inductive EventType
  | eventNone
  | newConnection
  | connectionError
  | connectionClosed
  | newConnectionData
  | protoError
  | timeout
deriving Repr, DecidableEq

/-- Go error values as the engine observes them: io.EOF is distinguished
because checkConnErr compares the error against io.EOF, every other error
is opaque. -/
inductive GoErr
  | eof
  | other (code : Nat)
deriving Repr, DecidableEq

/-- Dynamically typed Go values carried in event Data fields, protocol
results and SendData payloads: nil, a byte slice, an opaque structured
message, or an error value. -/
inductive GoValue
  | nilV
  | bytes (bs : List Nat)
  | msg (m : Nat)
  | err (e : GoErr)
deriving Repr, DecidableEq

/-- ConnEvent from connection.go: the event kind, the nilable connection
reference (modelled by the connection id) and the Data payload. -/
structure ConnEvent where
  etype : EventType
  conn : Option Int
  data : GoValue
deriving Repr, DecidableEq

/-- One result of a blocking call to net.Conn.Read: the bytes the socket
delivered into the buffer (the returned count is their number, capped by
the buffer size at the call site) and the returned error value. -/
structure ReadRes where
  data : List Nat
  err : Option GoErr
deriving Repr, DecidableEq

/-- The IProto interface of connection.go. HeadLen is the fixed header
size; BodyLen maps raw header bytes to the decoded header value and the
body length; Parse combines the decoded header with the body bytes;
Serialize encodes an outbound value; FilterAccept screens a freshly
accepted connection, modelled here by its id. -/
structure IProto where
  FilterAccept : Int → Bool
  HeadLen : Nat
  BodyLen : List Nat → Except GoErr (GoValue × Nat)
  Parse : GoValue → List Nat → Except GoErr GoValue
  Serialize : GoValue → Except GoErr (List Nat)

/-- Mutable state of one Connection: status, whether the socket and the
msgChan are still open, the frames queued in msgChan, and the listen
field, which holds the id of the accepting listener for server side
connections and nothing for client side ones. -/
structure ConnState where
  status : Status
  sockOpen : Bool
  msgChanOpen : Bool
  msgChan : List (List Nat)
  listen : Option Int
deriving Repr, DecidableEq

/-- A Go slice of connection ids: the shared backing array together with
the current slice length. The live elements are the first len entries. -/
structure Reg where
  backing : List Int
  len : Nat
deriving Repr, DecidableEq

/-- The elements visible through the slice header. -/
def Reg.live (r : Reg) : List Int := r.backing.take r.len

/-- Well formedness of a slice: the length never exceeds the backing
array, which holds for every slice Go can construct. -/
def Reg.Wf (r : Reg) : Prop := r.len ≤ r.backing.length

/-- Listener state from connection.go: id, status, bound socket, and the
conns sub registry of accepted connections. -/
structure Listener where
  id : Int
  status : Status
  sockOpen : Bool
  conns : Reg
deriving Repr, DecidableEq

/-- SimpleNet state from connection.go: the buffered events channel as a
queue plus a closed flag, the connection store, the client connection
registry connClient, the listener registry connServer, the id counter
nextid and the destroy flag. -/
structure SimpleNet where
  events : List ConnEvent
  eventsClosed : Bool
  conn : Int → ConnState
  connClient : Reg
  connServer : List Listener
  nextid : Int
  destroy : Bool

/-- Overwrite the stored state of one connection. -/
def SimpleNet.setConn (s : SimpleNet) (cid : Int) (c : ConnState) : SimpleNet :=
  { s with conn := fun x => if x = cid then c else s.conn x }

/-- Resolve a listener id to the listener object, modelling a Go pointer
to the listener (ids issued by the engine are unique). -/
def SimpleNet.getListener (s : SimpleNet) (lid : Int) : Option Listener :=
  s.connServer.find? (fun l => l.id == lid)

/-- Update the listener object a listener pointer refers to. -/
def SimpleNet.updateListener (s : SimpleNet) (lid : Int) (f : Listener → Listener) : SimpleNet :=
  { s with connServer := s.connServer.map (fun l => if l.id = lid then f l else l) }

/-- Backing array effect of the Go slice deletion
append of connQueue up to i and connQueue from i plus one: inside a slice
of length len, positions i to len minus two are overwritten by their right
neighbour and every position from len minus one on keeps its old value,
because append copies in place into the shared backing array. -/
def goShift (b : List Int) (len i : Nat) : List Int :=
  (List.range b.length).map (fun j =>
    if i ≤ j ∧ j + 1 < len then b.getD (j + 1) 0 else b.getD j 0)

/-- The slice deletion step of syncDelClient: find the first live index
holding cid; when it is the last live index just shorten the slice,
otherwise shift the tail left inside the shared backing array and shorten
the slice. When cid is absent nothing changes. -/
def Reg.syncDel (r : Reg) (cid : Int) : Reg :=
  match r.live.findIdx? (fun v => v == cid) with
  | Option.none => r
  | Option.some i =>
    if i = r.len - 1 then { backing := r.backing, len := r.len - 1 }
    else { backing := goShift r.backing r.len i, len := r.len - 1 }

/-- The append step of syncAddClient: write into spare capacity when the
backing array has room, otherwise grow the backing array. -/
def Reg.push (r : Reg) (cid : Int) : Reg :=
  if r.len < r.backing.length then
    { backing := r.backing.set r.len cid, len := r.len + 1 }
  else
    { backing := r.backing ++ [cid], len := r.len + 1 }

/-- syncAddClient from connection.go: append the connection to the conns
slice of its listener when it has one, else to connClient. -/
def SimpleNet.syncAddClient (s : SimpleNet) (cid : Int) : SimpleNet :=
  match (s.conn cid).listen with
  | Option.none => { s with connClient := s.connClient.push cid }
  | Option.some lid => s.updateListener lid (fun l => { l with conns := l.conns.push cid })

/-- syncDelClient from connection.go: delete the connection from the conns
slice of its listener when it has one, else from connClient. -/
def SimpleNet.syncDelClient (s : SimpleNet) (cid : Int) : SimpleNet :=
  match (s.conn cid).listen with
  | Option.none => { s with connClient := s.connClient.syncDel cid }
  | Option.some lid => s.updateListener lid (fun l => { l with conns := l.conns.syncDel cid })

/-- The registry a connection is looked up in by syncDelClient: the conns
slice of its listener for accepted connections, connClient otherwise. -/
def SimpleNet.regOf (s : SimpleNet) (cid : Int) : Reg :=
  match (s.conn cid).listen with
  | Option.none => s.connClient
  | Option.some lid =>
    match s.getListener lid with
    | Option.none => ⟨[], 0⟩
    | Option.some l => l.conns

/-- CloseConn from connection.go: when the connection is Connected, set
status Broken, close msgChan, close the socket and run syncDelClient;
otherwise do nothing. The Go function always returns nil. -/
def SimpleNet.CloseConn (s : SimpleNet) (cid : Int) : SimpleNet :=
  if (s.conn cid).status = Status.connected then
    ((s.setConn cid
      { (s.conn cid) with
        status := Status.broken
        msgChanOpen := false
        sockOpen := false })).syncDelClient cid
  else s

/-- checkConnErr from connection.go, the shared error handler of the read
and write tasks: with a nil error it does nothing; otherwise, when the
engine is destroyed it only hands the error back; otherwise a still
Connected connection is torn down (msgChan closed, socket closed, status
Broken, syncDelClient) and one event is pushed, ConnectionClosed when the
error is io.EOF and ConnectionError otherwise, with the error as Data.
The count argument is received and never inspected by the Go code. -/
def SimpleNet.checkConnErr (s : SimpleNet) (count : Nat) (err : Option GoErr) (cid : Int) :
    SimpleNet × Option GoErr :=
  match err with
  | Option.none => (s, Option.none)
  | Option.some e =>
    if s.destroy then (s, Option.some e)
    else
      let s1 :=
        if (s.conn cid).status = Status.connected then
          ((s.setConn cid
            { (s.conn cid) with
              status := Status.broken
              msgChanOpen := false
              sockOpen := false })).syncDelClient cid
        else s
      let evt := if e = GoErr.eof then EventType.connectionClosed else EventType.connectionError
      ({ s1 with events := s1.events ++ [⟨evt, Option.some cid, GoValue.err e⟩] },
        Option.some e)

/-- CloseListen from connection.go: when the listener is Listenning, run
CloseConn on each element the range loop reads from the conns slice (the
loop keeps the original slice header, length included, while syncDelClient
mutates the shared backing array under it), then set the listener Broken
and close its socket. -/
def SimpleNet.CloseListen (s : SimpleNet) (lid : Int) : SimpleNet :=
  match s.getListener lid with
  | Option.none => s
  | Option.some l =>
    if l.status = Status.listenning then
      let s1 := (List.range l.conns.len).foldl
        (fun st k =>
          match st.getListener lid with
          | Option.none => st
          | Option.some cur => st.CloseConn (cur.conns.backing.getD k 0)) s
      s1.updateListener lid (fun x => { x with status := Status.broken, sockOpen := false })
    else s

/-- SimpleNetDestroy from connection.go: close the events channel, run
CloseConn on each element the range loop reads from connClient (again the
original slice header over a mutated backing array), run CloseListen on
every registered listener, then set the destroy flag. -/
def SimpleNetDestroy (s : SimpleNet) : SimpleNet :=
  let s0 : SimpleNet := { s with eventsClosed := true }
  let s1 := (List.range s0.connClient.len).foldl
    (fun st k => st.CloseConn (st.connClient.backing.getD k 0)) s0
  let s2 := (s1.connServer.map (fun l => l.id)).foldl
    (fun st lid => st.CloseListen lid) s1
  { s2 with destroy := true }

/-- Outcome of one PollEvent call. -/
inductive PollOut
  | event (e : ConnEvent)
  | destroyedErr
  | blocked
deriving Repr, DecidableEq

/-- PollEvent from connection.go: receive from the events channel when a
value is buffered; a closed and drained channel yields the SimpleNet
destroyed error; when the timer fires before any event arrives a Timeout
event is built locally and the queue is untouched. The timedOut flag
records whether the timer fired first. -/
def SimpleNet.PollEvent (s : SimpleNet) (timedOut : Bool) : PollOut × SimpleNet :=
  match s.events with
  | e :: rest => (PollOut.event e, { s with events := rest })
  | [] =>
    if s.eventsClosed then (PollOut.destroyedErr, s)
    else if timedOut then
      (PollOut.event ⟨EventType.timeout, Option.none, GoValue.nilV⟩, s)
    else (PollOut.blocked, s)

/-- Error results of SendData: the not connected error, the unexpect data
type error, or an error propagated from Serialize. -/
inductive SendErr
  | notConnected
  | unexpectType
  | serializeFail (e : GoErr)
deriving Repr, DecidableEq

/-- SendData from connection.go. The protocol bound to the connection is
passed explicitly, since it is fixed at creation time. An error result
leaves the state unchanged; ok carries the new state with the wire bytes
appended to the msgChan of the target connection. -/
def SimpleNet.SendData (s : SimpleNet) (cid : Int) (proto : Option IProto) (d : GoValue) :
    Except SendErr SimpleNet :=
  if (s.conn cid).status ≠ Status.connected then Except.error SendErr.notConnected
  else
    match proto with
    | Option.none =>
      match d with
      | GoValue.bytes bs =>
        Except.ok (s.setConn cid { (s.conn cid) with msgChan := (s.conn cid).msgChan ++ [bs] })
      | _ => Except.error SendErr.unexpectType
    | Option.some p =>
      match p.Serialize d with
      | Except.error e => Except.error (SendErr.serializeFail e)
      | Except.ok m =>
        Except.ok (s.setConn cid { (s.conn cid) with msgChan := (s.conn cid).msgChan ++ [m] })

/-- Contents of a zero initialised Go buffer of size n after a Read that
delivered bs: the delivered bytes, capped at the buffer size, followed by
the untouched zero bytes. -/
def padTo (n : Nat) (bs : List Nat) : List Nat :=
  bs.take n ++ List.replicate (n - bs.length) 0

/-- How one iteration of a task loop ends. -/
inductive StepOutcome
  | continues
  | ends
  | blocked
deriving Repr, DecidableEq

/-- Result of one iteration of the handleRead loop: the new engine state,
the unconsumed part of the socket oracle, and how the iteration ended. -/
structure StepResult where
  st : SimpleNet
  rest : List ReadRes
  outcome : StepOutcome

/-- One iteration of the unframed branch of handleRead: a one byte buffer
is allocated, one Read result is consumed, checkConnErr runs on its error,
and on success a NewConnectionData event carrying the whole buffer is
pushed. -/
def SimpleNet.handleReadRaw (s : SimpleNet) (cid : Int) (ora : List ReadRes) : StepResult :=
  match ora with
  | [] => ⟨s, [], StepOutcome.blocked⟩
  | r :: rest =>
    let buf := padTo 1 r.data
    match s.checkConnErr (min r.data.length 1) r.err cid with
    | (s1, Option.some _) => ⟨s1, rest, StepOutcome.ends⟩
    | (s1, Option.none) =>
      ⟨{ s1 with events := s1.events ++
          [⟨EventType.newConnectionData, Option.some cid, GoValue.bytes buf⟩] },
        rest, StepOutcome.continues⟩

/-- One iteration of the framed branch of handleRead: one Read into the
zero initialised header buffer of HeadLen bytes, checkConnErr, BodyLen on
the buffer, one Read into the zero initialised body buffer, checkConnErr,
Parse; a BodyLen or Parse error pushes ProtoError and continues, a Read
error ends the task through checkConnErr. -/
def SimpleNet.handleReadFramed (s : SimpleNet) (cid : Int) (p : IProto) (ora : List ReadRes) :
    StepResult :=
  match ora with
  | [] => ⟨s, [], StepOutcome.blocked⟩
  | r :: rest =>
    let head := padTo p.HeadLen r.data
    match s.checkConnErr (min r.data.length p.HeadLen) r.err cid with
    | (s1, Option.some _) => ⟨s1, rest, StepOutcome.ends⟩
    | (s1, Option.none) =>
      match p.BodyLen head with
      | Except.error e =>
        ⟨{ s1 with events := s1.events ++
            [⟨EventType.protoError, Option.some cid, GoValue.err e⟩] },
          rest, StepOutcome.continues⟩
      | Except.ok (headmsg, bodylen) =>
        match rest with
        | [] => ⟨s1, [], StepOutcome.blocked⟩
        | r2 :: rest2 =>
          let body := padTo bodylen r2.data
          match s1.checkConnErr (min r2.data.length bodylen) r2.err cid with
          | (s2, Option.some _) => ⟨s2, rest2, StepOutcome.ends⟩
          | (s2, Option.none) =>
            match p.Parse headmsg body with
            | Except.error e =>
              ⟨{ s2 with events := s2.events ++
                  [⟨EventType.protoError, Option.some cid, GoValue.err e⟩] },
                rest2, StepOutcome.continues⟩
            | Except.ok d =>
              ⟨{ s2 with events := s2.events ++
                  [⟨EventType.newConnectionData, Option.some cid, d⟩] },
                rest2, StepOutcome.continues⟩

/-- One iteration of the handleRead loop: headlen is zero when no protocol
is bound, and the code takes the one byte branch when headlen is not
positive, the framed branch otherwise. -/
def SimpleNet.handleReadIter (s : SimpleNet) (cid : Int) (proto : Option IProto)
    (ora : List ReadRes) : StepResult :=
  match proto with
  | Option.none => s.handleReadRaw cid ora
  | Option.some p =>
    if p.HeadLen = 0 then s.handleReadRaw cid ora
    else s.handleReadFramed cid p ora

/-- Result of one successful accept in the listening loop: the new state
and whether the read and write tasks were spawned for the connection. -/
structure AcceptResult where
  st : SimpleNet
  readTaskSpawned : Bool
  writeTaskSpawned : Bool

/-- One successful accept iteration of the listening loop: allocate the
Connection (fresh id from the atomic counter, status Connected, open
msgChan, listen set to the accepting listener, protocol inherited from the
listener); when a protocol is bound and FilterAccept rejects, continue
without registering, pushing an event, or spawning tasks; otherwise
syncAddClient, push NewConnection, spawn handleRead and handleWrite. -/
def SimpleNet.listeningIter (s : SimpleNet) (lid : Int) (proto : Option IProto) : AcceptResult :=
  let cid := s.nextid + 1
  let s1 : SimpleNet := { s with nextid := cid }
  let s2 := s1.setConn cid
    { status := Status.connected
      sockOpen := true
      msgChanOpen := true
      msgChan := []
      listen := Option.some lid }
  let accept : Bool :=
    match proto with
    | Option.none => true
    | Option.some p => p.FilterAccept cid
  if accept then
    let s3 := s2.syncAddClient cid
    ⟨{ s3 with events := s3.events ++
        [⟨EventType.newConnection, Option.some cid, GoValue.nilV⟩] },
      true, true⟩
  else ⟨s2, false, false⟩

/-- Two complement wraparound into the signed 64 bit range, the overflow
behaviour of arithmetic on a Go int64. -/
def wrap64 (x : Int) : Int := (x + 2 ^ 63) % 2 ^ 64 - 2 ^ 63

/-- The id allocation step shared by Listen, Connect and the accept loop:
atomic.AddInt64 on the int64 field nextid returns the incremented counter
with signed 64 bit wraparound, and that value becomes the id of the new
object. A fresh SimpleNet starts the counter at zero. -/
def allocId (nextid : Int) : Int × Int :=
  (wrap64 (nextid + 1), wrap64 (nextid + 1))

/-- The ids handed out by n consecutive allocations starting from a given
counter value. -/
def idsFrom (c : Int) : Nat → List Int
  | 0 => []
  | Nat.succ k => (allocId c).2 :: idsFrom (allocId c).1 k

/-- Default record for connections the store holds no entry for. -/
def connNone : ConnState := ⟨Status.statusNone, false, false, [], Option.none⟩

/-- A live accepted connection owned by listener 10. -/
def srvConn : ConnState := ⟨Status.connected, true, true, [], Option.some 10⟩

/-- A live client connection. -/
def cliConn : ConnState := ⟨Status.connected, true, true, [], Option.none⟩

/-- An engine whose listener 10 owns three live accepted connections. -/
def netK3 : SimpleNet :=
  { events := []
    eventsClosed := false
    conn := fun x => if x = 1 ∨ x = 2 ∨ x = 3 then srvConn else connNone
    connClient := ⟨[], 0⟩
    connServer := [⟨10, Status.listenning, true, ⟨[1, 2, 3], 3⟩⟩]
    nextid := 13
    destroy := false }

/-- An engine with three registered client connections and one idle
listener. -/
def netD3 : SimpleNet :=
  { events := []
    eventsClosed := false
    conn := fun x => if x = 1 ∨ x = 2 ∨ x = 3 then cliConn else connNone
    connClient := ⟨[1, 2, 3], 3⟩
    connServer := [⟨10, Status.listenning, true, ⟨[], 0⟩⟩]
    nextid := 13
    destroy := false }

/-- An engine with a single registered client connection. -/
def netOne : SimpleNet :=
  { events := []
    eventsClosed := false
    conn := fun x => if x = 1 then cliConn else connNone
    connClient := ⟨[1], 1⟩
    connServer := []
    nextid := 1
    destroy := false }

/-- Fold bytes into a decimal number, a concrete decoder body. -/
def digitsVal (bs : List Nat) : Nat := bs.foldl (fun a x => a * 10 + x) 0

/-- A concrete framed protocol with a four byte header whose BodyLen and
Parse both succeed and encode their inputs into the resulting message. -/
def proto4 : IProto :=
  { FilterAccept := fun _ => true
    HeadLen := 4
    BodyLen := fun h => Except.ok (GoValue.msg (digitsVal h), 2)
    Parse := fun hm b =>
      match hm with
      | GoValue.msg m => Except.ok (GoValue.msg (m * 100 + digitsVal b))
      | _ => Except.error (GoErr.other 99)
    Serialize := fun _ => Except.ok [] }

/-- Socket oracle delivering a short header read, two bytes where proto4
expects four, with no error, then a normal two byte body read. -/
def oraShort : List ReadRes := [⟨[7, 7], Option.none⟩, ⟨[9, 9], Option.none⟩]

/-- A concrete framed protocol whose BodyLen rejects every header except
the bytes 1 1, and whose Parse always fails. -/
def protoRej : IProto :=
  { FilterAccept := fun _ => true
    HeadLen := 2
    BodyLen := fun h =>
      if h = [1, 1] then Except.ok (GoValue.msg 0, 1) else Except.error (GoErr.other 5)
    Parse := fun _ _ => Except.error (GoErr.other 6)
    Serialize := fun _ => Except.ok [] }

/-- A protocol whose Serialize succeeds on byte values and fails on
everything else. -/
def protoSer : IProto :=
  { FilterAccept := fun _ => true
    HeadLen := 0
    BodyLen := fun _ => Except.error (GoErr.other 1)
    Parse := fun _ _ => Except.error (GoErr.other 1)
    Serialize := fun d =>
      match d with
      | GoValue.bytes bs => Except.ok bs
      | _ => Except.error (GoErr.other 7) }

/-- A protocol whose accept filter rejects every connection. -/
def protoNoAccept : IProto :=
  { FilterAccept := fun _ => false
    HeadLen := 0
    BodyLen := fun _ => Except.error (GoErr.other 1)
    Parse := fun _ _ => Except.error (GoErr.other 1)
    Serialize := fun _ => Except.ok [] }

/-- An engine with one empty listener 10 and no connections. -/
def netL : SimpleNet :=
  { events := []
    eventsClosed := false
    conn := fun _ => connNone
    connClient := ⟨[], 0⟩
    connServer := [⟨10, Status.listenning, true, ⟨[], 0⟩⟩]
    nextid := 20
    destroy := false }

/-- An engine with one queued event. -/
def netEvt : SimpleNet :=
  { events := [⟨EventType.newConnection, Option.some 1, GoValue.nilV⟩]
    eventsClosed := false
    conn := fun _ => connNone
    connClient := ⟨[], 0⟩
    connServer := []
    nextid := 0
    destroy := false }

/-- An engine whose event queue is drained and closed by destroy. -/
def netClosed : SimpleNet :=
  { events := []
    eventsClosed := true
    conn := fun _ => connNone
    connClient := ⟨[], 0⟩
    connServer := []
    nextid := 0
    destroy := true }

/-- An engine with no queued event and an open queue. -/
def netIdle : SimpleNet :=
  { events := []
    eventsClosed := false
    conn := fun _ => connNone
    connClient := ⟨[], 0⟩
    connServer := []
    nextid := 0
    destroy := false }

/-- The accept decision of the listening loop: true when no protocol is
bound, otherwise the FilterAccept verdict on the fresh connection id. -/
def acceptFlag (s : SimpleNet) (p : Option IProto) : Bool :=
  match p with
  | Option.none => true
  | Option.some pm => pm.FilterAccept (s.nextid + 1)

/-- A predicate that finds an index finds one inside the list. -/
theorem findIdx?_some_lt {α : Type} (p : α → Bool) :
    ∀ (l : List α) (i : Nat), l.findIdx? p = Option.some i → i < l.length := by
  intro l
  induction l with
  | nil => intro i h; simp [List.findIdx?] at h
  | cons x xs ih =>
    intro i h
    rw [List.findIdx?_cons] at h
    by_cases hp : p x
    · simp [hp] at h
      simp [← h]
    · simp [hp, List.findIdx?_succ] at h
      obtain ⟨j, hj, hij⟩ := h
      have := ih j hj
      simp
      omega

/-- Deleting at the first index found for cid is the same as erasing the
first occurrence of cid. -/
theorem eraseIdx_findIdx_eq_erase (cid : Int) :
    ∀ (l : List Int) (i : Nat), l.findIdx? (fun v => v == cid) = Option.some i →
      l.eraseIdx i = l.erase cid := by
  intro l
  induction l with
  | nil => intro i h; simp [List.findIdx?] at h
  | cons x xs ih =>
    intro i h
    rw [List.findIdx?_cons] at h
    by_cases hp : x == cid
    · simp [hp] at h
      rw [← h, List.eraseIdx_cons_zero, List.erase_cons, if_pos hp]
    · simp [hp, List.findIdx?_succ] at h
      obtain ⟨j, hj, hij⟩ := h
      rw [← hij, List.eraseIdx_cons_succ, List.erase_cons, if_neg hp]
      rw [ih j hj]

/-- With at most one occurrence, erasing removes membership. -/
theorem not_mem_erase_of_count_le_one (cid : Int) (l : List Int)
    (h : l.count cid ≤ 1) : cid ∉ l.erase cid := by
  by_cases hm : cid ∈ l
  · have hc := List.count_erase_self cid l
    have : (l.erase cid).count cid = 0 := by
      have := List.count_pos_iff.mpr hm
      omega
    exact List.count_eq_zero.mp this
  · rw [List.erase_of_not_mem hm]; exact hm

/-- The live slice of a well formed registry after syncDel is the live
slice before with the first occurrence of cid erased. -/
theorem Reg.syncDel_live (r : Reg) (cid : Int) (hwf : r.Wf) :
    (r.syncDel cid).live = r.live.erase cid := by
  cases h : r.live.findIdx? (fun v => v == cid) with
  | none =>
    have hsd : r.syncDel cid = r := by
      unfold Reg.syncDel
      rw [h]
    rw [hsd]
    have hnm : cid ∉ r.live := by
      intro hm
      have := List.findIdx?_eq_none_iff.mp h cid hm
      simp at this
    rw [List.erase_of_not_mem hnm]
  | some i =>
    have hsd : r.syncDel cid =
        (if i = r.len - 1 then ({ backing := r.backing, len := r.len - 1 } : Reg)
         else { backing := goShift r.backing r.len i, len := r.len - 1 }) := by
      unfold Reg.syncDel
      rw [h]
    rw [hsd]
    have hwfl : r.len ≤ r.backing.length := hwf
    have hlive : r.live.length = r.len := by
      simp [Reg.live, List.length_take]
      exact hwf
    have hi : i < r.len := by
      have := findIdx?_some_lt _ _ _ h
      omega
    have herase : r.live.erase cid = r.live.eraseIdx i :=
      (eraseIdx_findIdx_eq_erase cid r.live i h).symm
    rw [herase]
    by_cases hlast : i = r.len - 1
    · rw [if_pos hlast]
      show r.backing.take (r.len - 1) = r.live.eraseIdx i
      rw [List.eraseIdx_eq_take_drop_succ, hlast]
      have h1 : r.len - 1 + 1 = r.len := by omega
      rw [h1]
      have h2 : List.drop r.len r.live = [] := by
        apply List.drop_eq_nil_of_le; omega
      rw [h2, List.append_nil]
      show r.backing.take (r.len - 1) = (r.backing.take r.len).take (r.len - 1)
      rw [List.take_take, Nat.min_eq_left (by omega)]
    · rw [if_neg hlast]
      show (goShift r.backing r.len i).take (r.len - 1) = r.live.eraseIdx i
      have hglen : (goShift r.backing r.len i).length = r.backing.length := by
        simp [goShift]
      apply List.ext_getElem
      · rw [List.length_take, hglen, List.length_eraseIdx, hlive, if_pos hi]
        exact Nat.min_eq_left (by omega)
      · intro j h1 h2
        have hj : j < r.len - 1 := by
          rw [List.length_take, hglen] at h1
          exact lt_of_lt_of_le h1 (min_le_left _ _)
        have hjb : j < r.backing.length := by omega
        have hjb1 : j + 1 < r.len := by omega
        have hjb2 : j + 1 < r.backing.length := by omega
        rw [List.getElem_take]
        have hgj : ∀ hh : j < (goShift r.backing r.len i).length,
            (goShift r.backing r.len i)[j]
              = if i ≤ j ∧ j + 1 < r.len then r.backing.getD (j + 1) 0
                else r.backing.getD j 0 := by
          intro hh
          simp [goShift]
        rw [hgj (by omega)]
        simp only [List.eraseIdx_eq_take_drop_succ]
        by_cases hij : i ≤ j
        · rw [if_pos ⟨hij, hjb1⟩]
          have hti : (r.live.take i).length = i := by
            rw [List.length_take]
            exact Nat.min_eq_left (by omega)
          rw [List.getElem_append_right (by omega)]
          rw [List.getElem_drop]
          have harith : i + 1 + (j - (r.live.take i).length) = j + 1 := by
            rw [hti]; omega
          simp only [harith]
          simp only [Reg.live]
          rw [List.getElem_take]
          exact List.getD_eq_getElem r.backing 0 hjb2
        · rw [if_neg (by omega)]
          have hti : (r.live.take i).length = i := by
            rw [List.length_take]
            exact Nat.min_eq_left (by omega)
          rw [List.getElem_append_left (by omega)]
          simp only [Reg.live]
          rw [List.getElem_take, List.getElem_take]
          exact List.getD_eq_getElem r.backing 0 hjb

/-- The live slice of a well formed registry after push is the live slice
before with cid appended. -/
theorem Reg.push_live (r : Reg) (cid : Int) (hwf : r.Wf) :
    (r.push cid).live = r.live ++ [cid] := by
  unfold Reg.push Reg.live
  by_cases h : r.len < r.backing.length
  · rw [if_pos h]
    show (r.backing.set r.len cid).take (r.len + 1) = r.backing.take r.len ++ [cid]
    rw [List.take_succ]
    congr 1
    · apply List.ext_getElem
      · simp [List.length_take]
      · intro j h1 h2
        rw [List.getElem_take, List.getElem_take]
        have hj : j < r.len := by
          rw [List.length_take] at h1
          simp at h1
          omega
        exact List.getElem_set_ne (by omega) _
    · rw [List.getElem?_set_self (by omega)]
      rfl
  · rw [if_neg h]
    have heq : r.len = r.backing.length := by
      unfold Reg.Wf at hwf; omega
    show (r.backing ++ [cid]).take (r.len + 1) = r.backing.take r.len ++ [cid]
    rw [heq, List.take_of_length_le (by simp), List.take_length]

/-- Looking a listener up after an id preserving update of another or the
same listener. -/
theorem getListener_updateListener (s : SimpleNet) (lid tid : Int) (f : Listener → Listener)
    (hf : ∀ l, (f l).id = l.id) :
    (s.updateListener lid f).getListener tid
      = (s.getListener tid).map (fun l => if l.id = lid then f l else l) := by
  unfold SimpleNet.updateListener SimpleNet.getListener
  show ((s.connServer.map (fun l => if l.id = lid then f l else l)).find? (fun l => l.id == tid))
      = Option.map (fun l => if l.id = lid then f l else l)
        (s.connServer.find? (fun l => l.id == tid))
  rw [List.find?_map]
  have hpg : ((fun l => l.id == tid) ∘ fun l : Listener => if l.id = lid then f l else l)
      = (fun l : Listener => l.id == tid) := by
    funext l
    by_cases h : l.id = lid <;> simp [h, hf]
  rw [hpg]

/-- syncDelClient never touches the events queue, the connection store,
or the flags. -/
theorem syncDelClient_parts (s : SimpleNet) (cid : Int) :
    (s.syncDelClient cid).events = s.events
    ∧ (s.syncDelClient cid).conn = s.conn
    ∧ (s.syncDelClient cid).eventsClosed = s.eventsClosed
    ∧ (s.syncDelClient cid).destroy = s.destroy := by
  unfold SimpleNet.syncDelClient SimpleNet.updateListener
  cases (s.conn cid).listen <;> exact ⟨rfl, rfl, rfl, rfl⟩

/-- setConn only touches the connection store, and only at cid. -/
theorem setConn_parts (s : SimpleNet) (cid : Int) (c : ConnState) :
    (s.setConn cid c).events = s.events
    ∧ (s.setConn cid c).connClient = s.connClient
    ∧ (s.setConn cid c).connServer = s.connServer
    ∧ (s.setConn cid c).destroy = s.destroy
    ∧ (s.setConn cid c).conn cid = c := by
  unfold SimpleNet.setConn
  refine ⟨rfl, rfl, rfl, rfl, ?_⟩
  simp

/-- Evaluation of regOf for a client connection. -/
theorem regOf_eq_client (s : SimpleNet) (cid : Int)
    (h : (s.conn cid).listen = Option.none) : s.regOf cid = s.connClient := by
  unfold SimpleNet.regOf
  rw [h]

/-- Evaluation of regOf for an accepted connection whose listener is
registered. -/
theorem regOf_eq_listener (s : SimpleNet) (cid lid : Int)
    (h : (s.conn cid).listen = Option.some lid)
    (l0 : Listener) (hfind : s.getListener lid = Option.some l0) :
    s.regOf cid = l0.conns := by
  unfold SimpleNet.regOf
  rw [h]
  show (match s.getListener lid with
    | Option.none => (⟨[], 0⟩ : Reg)
    | Option.some l => l.conns) = l0.conns
  rw [hfind]

/-- Evaluation of regOf when the listener pointer resolves to nothing. -/
theorem regOf_eq_empty (s : SimpleNet) (cid lid : Int)
    (h : (s.conn cid).listen = Option.some lid)
    (hfind : s.getListener lid = Option.none) :
    s.regOf cid = ⟨[], 0⟩ := by
  unfold SimpleNet.regOf
  rw [h]
  show (match s.getListener lid with
    | Option.none => (⟨[], 0⟩ : Reg)
    | Option.some l => l.conns) = ⟨[], 0⟩
  rw [hfind]

/-- Evaluation of syncDelClient for a client connection. -/
theorem syncDelClient_eq_client (s : SimpleNet) (cid : Int)
    (h : (s.conn cid).listen = Option.none) :
    s.syncDelClient cid = { s with connClient := s.connClient.syncDel cid } := by
  unfold SimpleNet.syncDelClient
  rw [h]

/-- Evaluation of syncDelClient for an accepted connection. -/
theorem syncDelClient_eq_listener (s : SimpleNet) (cid lid : Int)
    (h : (s.conn cid).listen = Option.some lid) :
    s.syncDelClient cid
      = s.updateListener lid (fun l => { l with conns := l.conns.syncDel cid }) := by
  unfold SimpleNet.syncDelClient
  rw [h]

/-- Tearing one connection down and running syncDelClient turns the
registry the connection belongs to into its syncDel image, provided the
new connection record keeps the listen field. -/
theorem regOf_teardown (s : SimpleNet) (cid : Int) (c : ConnState)
    (hlis : c.listen = (s.conn cid).listen) :
    ((s.setConn cid c).syncDelClient cid).regOf cid = (s.regOf cid).syncDel cid := by
  have hc : (s.setConn cid c).conn cid = c := by
    unfold SimpleNet.setConn
    simp
  cases hl : (s.conn cid).listen with
  | none =>
    have hcl : c.listen = Option.none := by rw [hlis, hl]
    rw [syncDelClient_eq_client _ _ (by rw [hc]; exact hcl)]
    have hrec : ({ (s.setConn cid c) with
        connClient := (s.setConn cid c).connClient.syncDel cid }).conn cid = c := hc
    rw [regOf_eq_client _ _ (by rw [hrec]; exact hcl)]
    rw [regOf_eq_client s cid hl]
    rfl
  | some lid =>
    have hcl : c.listen = Option.some lid := by rw [hlis, hl]
    rw [syncDelClient_eq_listener _ _ lid (by rw [hc]; exact hcl)]
    have hup := getListener_updateListener (s.setConn cid c) lid lid
      (fun l => { l with conns := l.conns.syncDel cid }) (fun l => rfl)
    have hgs : (s.setConn cid c).getListener lid = s.getListener lid := rfl
    have hsu : ((s.setConn cid c).updateListener lid
        (fun l => { l with conns := l.conns.syncDel cid })).conn cid = c := hc
    cases hfind : s.getListener lid with
    | none =>
      have hfind2 : ((s.setConn cid c).updateListener lid
          (fun l => { l with conns := l.conns.syncDel cid })).getListener lid
          = Option.none := by
        rw [hup, hgs, hfind]
        rfl
      rw [regOf_eq_empty _ cid lid (by rw [hsu]; exact hcl) hfind2]
      rw [regOf_eq_empty s cid lid hl hfind]
      rfl
    | some l0 =>
      have hid : l0.id = lid := by
        have := List.find?_some hfind
        simpa using this
      have hfind2 : ((s.setConn cid c).updateListener lid
          (fun l => { l with conns := l.conns.syncDel cid })).getListener lid
          = Option.some { l0 with conns := l0.conns.syncDel cid } := by
        rw [hup, hgs, hfind]
        simp [hid]
      rw [regOf_eq_listener _ cid lid (by rw [hsu]; exact hcl) _ hfind2]
      rw [regOf_eq_listener s cid lid hl l0 hfind]

/-- C1: the spec claims CloseListen closes every live accepted connection
and empties the sub registry. On a listener owning the three Connected
connections 1, 2, 3 the code ranges over the conns slice while CloseConn
deletes from it through the shared backing array, so connection 2 is never
visited: afterwards connections 1 and 3 are Broken, but connection 2 is
still Connected with an open msgChan and socket, and it is the sole live
entry left in the sub registry (which the claim says must be empty). -/
theorem CloseListen_k3_skips_connection :
    ((netK3.CloseListen 10).conn 1).status = Status.broken
    ∧ ((netK3.CloseListen 10).conn 3).status = Status.broken
    ∧ ((netK3.CloseListen 10).conn 2).status = Status.connected
    ∧ ((netK3.CloseListen 10).conn 2).msgChanOpen = true
    ∧ ((netK3.CloseListen 10).conn 2).sockOpen = true
    ∧ ((netK3.CloseListen 10).getListener 10).map (fun l => l.conns.live) = Option.some [2]
    ∧ ((netK3.CloseListen 10).getListener 10).map (fun l => l.status)
        = Option.some Status.broken := by
  refine ⟨rfl, rfl, rfl, rfl, rfl, rfl, rfl⟩

/-- C2: the spec claims the framed read loop reads exactly HeadLen header
bytes and treats a short read as an I/O error ending the task. With
proto4 (HeadLen four) and a socket whose first Read delivers only the two
bytes 7 7 with a nil error, the code zero pads the header buffer to
7 7 0 0, hands it to BodyLen (the decoded message 770099 embeds the
padded header digits 7700), reads the body, emits NewConnectionData and
continues the loop with the connection still Connected: the short read is
not turned into an error and the decoder does run. -/
theorem handleRead_short_header_reaches_decoder :
    (netOne.handleReadIter 1 (Option.some proto4) oraShort).outcome = StepOutcome.continues
    ∧ (netOne.handleReadIter 1 (Option.some proto4) oraShort).st.events
        = [⟨EventType.newConnectionData, Option.some 1, GoValue.msg 770099⟩]
    ∧ ((netOne.handleReadIter 1 (Option.some proto4) oraShort).st.conn 1).status
        = Status.connected
    ∧ proto4.HeadLen = 4
    ∧ (oraShort.map (fun r => r.data.length)) = [2, 2] := by
  refine ⟨rfl, rfl, rfl, rfl, rfl⟩

/-- C3: the spec claims SimpleNetDestroy leaves every client connection
Broken. On an engine with the three Connected client connections 1, 2, 3
the destroy loop ranges over connClient while CloseConn deletes from it
through the shared backing array, so connection 2 is skipped: after
destroy it is still Connected and still the sole live entry of the client
registry, while connections 1 and 3 are Broken, the listener is Broken,
the queue is closed and the destroy flag is set. -/
theorem SimpleNetDestroy_three_clients_skips_one :
    ((SimpleNetDestroy netD3).conn 1).status = Status.broken
    ∧ ((SimpleNetDestroy netD3).conn 3).status = Status.broken
    ∧ ((SimpleNetDestroy netD3).conn 2).status = Status.connected
    ∧ (SimpleNetDestroy netD3).connClient.live = [2]
    ∧ ((SimpleNetDestroy netD3).getListener 10).map (fun l => l.status)
        = Option.some Status.broken
    ∧ (SimpleNetDestroy netD3).destroy = true
    ∧ (SimpleNetDestroy netD3).eventsClosed = true := by
  refine ⟨rfl, rfl, rfl, rfl, rfl, rfl, rfl⟩

/-- C5: PollEvent returns the next queued event when one is buffered;
when the queue is empty and closed it returns the destroyed error; when
the queue is empty, open, and the timer fired first, it returns a locally
built Timeout event with no connection reference, leaving the queue
untouched. -/
theorem PollEvent_spec (s : SimpleNet) (timedOut : Bool) :
    (∀ e rest, s.events = e :: rest →
      s.PollEvent timedOut = (PollOut.event e, { s with events := rest }))
    ∧ (s.events = [] → s.eventsClosed = true →
      s.PollEvent timedOut = (PollOut.destroyedErr, s))
    ∧ (s.events = [] → s.eventsClosed = false → timedOut = true →
      s.PollEvent timedOut
        = (PollOut.event ⟨EventType.timeout, Option.none, GoValue.nilV⟩, s)) := by
  refine ⟨?_, ?_, ?_⟩
  · intro e rest h
    unfold SimpleNet.PollEvent
    rw [h]
  · intro h hc
    unfold SimpleNet.PollEvent
    rw [h]
    simp [hc]
  · intro h hc ht
    unfold SimpleNet.PollEvent
    rw [h]
    simp [hc, ht]

/-- Closed instance of PollEvent_spec covering all three branches: an
engine with one queued NewConnection event delivers it and pops the
queue, a destroyed engine yields the error, and an idle engine whose
timer fired yields the synthesized Timeout event with no connection and
an unchanged state. -/
theorem PollEvent_spec_witness :
    netEvt.PollEvent false
      = (PollOut.event ⟨EventType.newConnection, Option.some 1, GoValue.nilV⟩,
         { netEvt with events := [] })
    ∧ netClosed.PollEvent false = (PollOut.destroyedErr, netClosed)
    ∧ netIdle.PollEvent true
      = (PollOut.event ⟨EventType.timeout, Option.none, GoValue.nilV⟩, netIdle) :=
  ⟨(PollEvent_spec netEvt false).1 _ _ rfl,
   (PollEvent_spec netClosed false).2.1 rfl rfl,
   (PollEvent_spec netIdle true).2.2 rfl rfl rfl⟩

/-- C6: SendData on a connection that is not Connected fails with the not
connected error and changes nothing; on a Connected connection with no
protocol it fails with the unexpect data type error whenever the payload
is not a raw byte slice and otherwise appends the bytes to the msgChan of
that connection; on a Connected connection with a protocol a Serialize
error is returned unchanged and on Serialize success the serialized bytes
are appended to the msgChan of that connection. An error result carries
no new state, so no msgChan is touched in any failure case. -/
theorem SendData_spec (s : SimpleNet) (cid : Int) (p : Option IProto) (d : GoValue) :
    ((s.conn cid).status ≠ Status.connected →
      s.SendData cid p d = Except.error SendErr.notConnected)
    ∧ ((s.conn cid).status = Status.connected →
        (∀ m, d = GoValue.msg m →
          s.SendData cid Option.none d = Except.error SendErr.unexpectType)
        ∧ (d = GoValue.nilV →
          s.SendData cid Option.none d = Except.error SendErr.unexpectType)
        ∧ (∀ e, d = GoValue.err e →
          s.SendData cid Option.none d = Except.error SendErr.unexpectType)
        ∧ (∀ bs, d = GoValue.bytes bs →
          s.SendData cid Option.none d
            = Except.ok (s.setConn cid
                { (s.conn cid) with msgChan := (s.conn cid).msgChan ++ [bs] }))
        ∧ (∀ pm e, p = Option.some pm → pm.Serialize d = Except.error e →
          s.SendData cid p d = Except.error (SendErr.serializeFail e))
        ∧ (∀ pm bs, p = Option.some pm → pm.Serialize d = Except.ok bs →
          s.SendData cid p d
            = Except.ok (s.setConn cid
                { (s.conn cid) with msgChan := (s.conn cid).msgChan ++ [bs] }))) := by
  constructor
  · intro h
    unfold SimpleNet.SendData
    rw [if_pos h]
  · intro h
    refine ⟨?_, ?_, ?_, ?_, ?_, ?_⟩
    · intro m hd
      unfold SimpleNet.SendData
      rw [if_neg (by simp [h]), hd]
    · intro hd
      unfold SimpleNet.SendData
      rw [if_neg (by simp [h]), hd]
    · intro e hd
      unfold SimpleNet.SendData
      rw [if_neg (by simp [h]), hd]
    · intro bs hd
      unfold SimpleNet.SendData
      rw [if_neg (by simp [h]), hd]
    · intro pm e hp hser
      unfold SimpleNet.SendData
      rw [if_neg (by simp [h]), hp]
      show (match pm.Serialize d with
        | Except.error e => Except.error (SendErr.serializeFail e)
        | Except.ok m =>
          Except.ok (s.setConn cid
            { (s.conn cid) with msgChan := (s.conn cid).msgChan ++ [m] })) = _
      rw [hser]
    · intro pm bs hp hser
      unfold SimpleNet.SendData
      rw [if_neg (by simp [h]), hp]
      show (match pm.Serialize d with
        | Except.error e => Except.error (SendErr.serializeFail e)
        | Except.ok m =>
          Except.ok (s.setConn cid
            { (s.conn cid) with msgChan := (s.conn cid).msgChan ++ [m] })) = _
      rw [hser]

/-- Closed instance of SendData_spec: connection 2 of netOne is not
Connected so SendData fails with the not connected error; Connected
connection 1 with no protocol rejects a structured message and accepts
raw bytes, and with protoSer a failing Serialize propagates its error
while a succeeding Serialize enqueues the serialized bytes. -/
theorem SendData_spec_witness :
    netOne.SendData 2 Option.none (GoValue.bytes [1]) = Except.error SendErr.notConnected
    ∧ netOne.SendData 1 Option.none (GoValue.msg 7) = Except.error SendErr.unexpectType
    ∧ netOne.SendData 1 Option.none (GoValue.bytes [4, 2])
        = Except.ok (netOne.setConn 1
            { (netOne.conn 1) with msgChan := (netOne.conn 1).msgChan ++ [[4, 2]] })
    ∧ netOne.SendData 1 (Option.some protoSer) (GoValue.msg 7)
        = Except.error (SendErr.serializeFail (GoErr.other 7))
    ∧ netOne.SendData 1 (Option.some protoSer) (GoValue.bytes [9])
        = Except.ok (netOne.setConn 1
            { (netOne.conn 1) with msgChan := (netOne.conn 1).msgChan ++ [[9]] }) :=
  ⟨(SendData_spec netOne 2 Option.none (GoValue.bytes [1])).1 (by decide),
   ((SendData_spec netOne 1 Option.none (GoValue.msg 7)).2 (by decide)).1 7 rfl,
   (((SendData_spec netOne 1 Option.none (GoValue.bytes [4, 2])).2 (by decide)).2.2.2.1) [4, 2] rfl,
   (((SendData_spec netOne 1 (Option.some protoSer) (GoValue.msg 7)).2 (by decide)).2.2.2.2.1)
     protoSer (GoErr.other 7) rfl rfl,
   (((SendData_spec netOne 1 (Option.some protoSer) (GoValue.bytes [9])).2 (by decide)).2.2.2.2.2)
     protoSer [9] rfl rfl⟩

/-- C10: in unframed mode (no protocol, or a protocol with HeadLen zero)
one iteration of the read loop allocates a one byte buffer, so on a
successful Read the emitted NewConnectionData event carries exactly that
buffer, a byte slice of length one, no matter how many bytes the socket
had available. -/
theorem handleRead_raw_one_byte (s : SimpleNet) (cid : Int) (proto : Option IProto)
    (ora : List ReadRes) (r : ReadRes) (rest : List ReadRes)
    (hp : proto = Option.none ∨ ∃ pm, proto = Option.some pm ∧ pm.HeadLen = 0)
    (hora : ora = r :: rest) (herr : r.err = Option.none) :
    s.handleReadIter cid proto ora
      = ⟨{ s with events := s.events ++
          [⟨EventType.newConnectionData, Option.some cid, GoValue.bytes (padTo 1 r.data)⟩] },
        rest, StepOutcome.continues⟩
    ∧ (padTo 1 r.data).length = 1 := by
  subst hora
  obtain ⟨rd, rerr⟩ := r
  have hre : rerr = Option.none := herr
  subst hre
  constructor
  · rcases hp with hnone | ⟨pm, hpm, hhl⟩
    · subst hnone
      rfl
    · subst hpm
      unfold SimpleNet.handleReadIter
      show (if pm.HeadLen = 0 then s.handleReadRaw cid (⟨rd, Option.none⟩ :: rest)
        else s.handleReadFramed cid pm (⟨rd, Option.none⟩ :: rest)) = _
      rw [if_pos hhl]
      rfl
  · rcases rd with _ | ⟨x, xs⟩ <;> simp [padTo]

/-- Closed instance of handleRead_raw_one_byte: with three bytes waiting
on the socket the emitted event still carries only the first byte as a
slice of length one. -/
theorem handleRead_raw_one_byte_witness :
    netOne.handleReadIter 1 Option.none [⟨[5, 6, 7], Option.none⟩]
      = ⟨{ netOne with events := netOne.events ++
          [⟨EventType.newConnectionData, Option.some 1, GoValue.bytes [5]⟩] },
        [], StepOutcome.continues⟩
    ∧ (padTo 1 [5, 6, 7]).length = 1 :=
  handleRead_raw_one_byte netOne 1 Option.none [⟨[5, 6, 7], Option.none⟩]
    ⟨[5, 6, 7], Option.none⟩ [] (Or.inl rfl) rfl rfl

/-- C7: in framed mode a BodyLen error (first conjunct) or a Parse error
(second conjunct) on an iteration whose socket reads returned no error
makes the read loop push exactly one ProtoError event carrying that error
and continue; the resulting state differs from the starting one only by
that event, so the connection status, msgChan, socket and registries are
untouched. -/
theorem framed_proto_error_keeps_connection (s : SimpleNet) (cid : Int) (p : IProto)
    (hp : p.HeadLen ≠ 0) :
    (∀ r rest e, r.err = Option.none →
      p.BodyLen (padTo p.HeadLen r.data) = Except.error e →
      s.handleReadIter cid (Option.some p) (r :: rest)
        = ⟨{ s with events := s.events ++
            [⟨EventType.protoError, Option.some cid, GoValue.err e⟩] },
          rest, StepOutcome.continues⟩)
    ∧ (∀ r1 r2 rest hm bl e, r1.err = Option.none → r2.err = Option.none →
      p.BodyLen (padTo p.HeadLen r1.data) = Except.ok (hm, bl) →
      p.Parse hm (padTo bl r2.data) = Except.error e →
      s.handleReadIter cid (Option.some p) (r1 :: r2 :: rest)
        = ⟨{ s with events := s.events ++
            [⟨EventType.protoError, Option.some cid, GoValue.err e⟩] },
          rest, StepOutcome.continues⟩) := by
  constructor
  · intro r rest e herr hbl
    obtain ⟨rd, rerr⟩ := r
    have hre : rerr = Option.none := herr
    subst hre
    unfold SimpleNet.handleReadIter
    show (if p.HeadLen = 0 then s.handleReadRaw cid (⟨rd, Option.none⟩ :: rest)
      else s.handleReadFramed cid p (⟨rd, Option.none⟩ :: rest)) = _
    rw [if_neg hp]
    unfold SimpleNet.handleReadFramed
    show ((match p.BodyLen (padTo p.HeadLen rd) with
      | Except.error e =>
        ⟨{ s with events := s.events ++
            [⟨EventType.protoError, Option.some cid, GoValue.err e⟩] },
          rest, StepOutcome.continues⟩
      | Except.ok (headmsg, bodylen) =>
        match rest with
        | [] => ⟨s, [], StepOutcome.blocked⟩
        | r2 :: rest2 =>
          match s.checkConnErr (min r2.data.length bodylen) r2.err cid with
          | (s2, Option.some _) => ⟨s2, rest2, StepOutcome.ends⟩
          | (s2, Option.none) =>
            match p.Parse headmsg (padTo bodylen r2.data) with
            | Except.error e =>
              ⟨{ s2 with events := s2.events ++
                  [⟨EventType.protoError, Option.some cid, GoValue.err e⟩] },
                rest2, StepOutcome.continues⟩
            | Except.ok d =>
              ⟨{ s2 with events := s2.events ++
                  [⟨EventType.newConnectionData, Option.some cid, d⟩] },
                rest2, StepOutcome.continues⟩ : StepResult)) = _
    rw [hbl]
  · intro r1 r2 rest hm bl e herr1 herr2 hbl hpar
    obtain ⟨rd1, rerr1⟩ := r1
    have hre1 : rerr1 = Option.none := herr1
    subst hre1
    obtain ⟨rd2, rerr2⟩ := r2
    have hre2 : rerr2 = Option.none := herr2
    subst hre2
    unfold SimpleNet.handleReadIter
    show (if p.HeadLen = 0 then s.handleReadRaw cid (⟨rd1, Option.none⟩ :: ⟨rd2, Option.none⟩ :: rest)
      else s.handleReadFramed cid p (⟨rd1, Option.none⟩ :: ⟨rd2, Option.none⟩ :: rest)) = _
    rw [if_neg hp]
    unfold SimpleNet.handleReadFramed
    show ((match p.BodyLen (padTo p.HeadLen rd1) with
      | Except.error e =>
        ⟨{ s with events := s.events ++
            [⟨EventType.protoError, Option.some cid, GoValue.err e⟩] },
          ⟨rd2, Option.none⟩ :: rest, StepOutcome.continues⟩
      | Except.ok (headmsg, bodylen) =>
        match p.Parse headmsg (padTo bodylen rd2) with
        | Except.error e =>
          ⟨{ s with events := s.events ++
              [⟨EventType.protoError, Option.some cid, GoValue.err e⟩] },
            rest, StepOutcome.continues⟩
        | Except.ok d =>
          ⟨{ s with events := s.events ++
              [⟨EventType.newConnectionData, Option.some cid, d⟩] },
            rest, StepOutcome.continues⟩ : StepResult)) = _
    rw [hbl]
    show ((match p.Parse hm (padTo bl rd2) with
      | Except.error e =>
        ⟨{ s with events := s.events ++
            [⟨EventType.protoError, Option.some cid, GoValue.err e⟩] },
          rest, StepOutcome.continues⟩
      | Except.ok d =>
        ⟨{ s with events := s.events ++
            [⟨EventType.newConnectionData, Option.some cid, d⟩] },
          rest, StepOutcome.continues⟩ : StepResult)) = _
    rw [hpar]

/-- Closed instance of framed_proto_error_keeps_connection with protoRej:
a header the decoder rejects yields exactly one ProtoError event and the
loop continues with the state otherwise unchanged, and a body Parse
rejects yields the same shape. -/
theorem framed_proto_error_keeps_connection_witness :
    netOne.handleReadIter 1 (Option.some protoRej) [⟨[9, 9], Option.none⟩]
      = ⟨{ netOne with events := netOne.events ++
          [⟨EventType.protoError, Option.some 1, GoValue.err (GoErr.other 5)⟩] },
        [], StepOutcome.continues⟩
    ∧ netOne.handleReadIter 1 (Option.some protoRej)
        [⟨[1, 1], Option.none⟩, ⟨[3], Option.none⟩]
      = ⟨{ netOne with events := netOne.events ++
          [⟨EventType.protoError, Option.some 1, GoValue.err (GoErr.other 6)⟩] },
        [], StepOutcome.continues⟩ :=
  ⟨(framed_proto_error_keeps_connection netOne 1 protoRej (by decide)).1
      ⟨[9, 9], Option.none⟩ [] (GoErr.other 5) rfl rfl,
   (framed_proto_error_keeps_connection netOne 1 protoRej (by decide)).2
      ⟨[1, 1], Option.none⟩ ⟨[3], Option.none⟩ [] (GoValue.msg 0) 1 (GoErr.other 6)
      rfl rfl rfl rfl⟩

/-- wrap64 is the identity on the int64 range. -/
theorem wrap64_eq_self (x : Int) (h1 : -2 ^ 63 ≤ x) (h2 : x < 2 ^ 63) : wrap64 x = x := by
  unfold wrap64
  have h3 : 0 ≤ x + 2 ^ 63 := by omega
  have h4 : x + 2 ^ 63 < 2 ^ 64 := by omega
  rw [Int.emod_eq_of_lt h3 h4]
  omega

/-- wrap64 always lands in the int64 range. -/
theorem wrap64_range (x : Int) : -2 ^ 63 ≤ wrap64 x ∧ wrap64 x < 2 ^ 63 := by
  unfold wrap64
  have h1 := Int.emod_nonneg (x + 2 ^ 63) (by norm_num : ((2 : Int) ^ 64) ≠ 0)
  have h2 := Int.emod_lt_of_pos (x + 2 ^ 63) (by norm_num : (0 : Int) < 2 ^ 64)
  omega

/-- n allocations hand out n ids. -/
theorem idsFrom_length : ∀ (n : Nat) (c : Int), (idsFrom c n).length = n := by
  intro n
  induction n with
  | zero => intro c; rfl
  | succ k ih => intro c; simp [idsFrom, ih]

/-- Every id ever handed out is an int64 value. -/
theorem idsFrom_mem_range : ∀ (n : Nat) (c : Int), ∀ x ∈ idsFrom c n,
    -2 ^ 63 ≤ x ∧ x < 2 ^ 63 := by
  intro n
  induction n with
  | zero => intro c x h; simp [idsFrom] at h
  | succ k ih =>
    intro c x h
    have hunf : idsFrom c (k + 1) = wrap64 (c + 1) :: idsFrom (wrap64 (c + 1)) k := rfl
    rw [hunf, List.mem_cons] at h
    rcases h with h | h
    · rw [h]
      exact wrap64_range _
    · exact ih _ x h

/-- While the counter stays below the wrap point, every id handed out
after counter value c is above c. -/
theorem idsFrom_mem_gt : ∀ (n : Nat) (c : Int), 0 ≤ c → c + (n : Int) < 2 ^ 63 →
    ∀ x ∈ idsFrom c n, c < x := by
  intro n
  induction n with
  | zero => intro c _ _ x h; simp [idsFrom] at h
  | succ k ih =>
    intro c hc hn x h
    push_cast at hn
    have hw : wrap64 (c + 1) = c + 1 := wrap64_eq_self _ (by omega) (by omega)
    have hunf : idsFrom c (k + 1) = wrap64 (c + 1) :: idsFrom (wrap64 (c + 1)) k := rfl
    rw [hunf, hw, List.mem_cons] at h
    rcases h with h | h
    · omega
    · have := ih (c + 1) (by omega) (by push_cast; omega) x h
      omega

/-- While the counter stays below the wrap point, the ids handed out are
strictly increasing. -/
theorem idsFrom_pairwise_lt : ∀ (n : Nat) (c : Int), 0 ≤ c → c + (n : Int) < 2 ^ 63 →
    List.Pairwise (fun a b => a < b) (idsFrom c n) := by
  intro n
  induction n with
  | zero => intro c _ _; simp [idsFrom]
  | succ k ih =>
    intro c hc hn
    push_cast at hn
    have hw : wrap64 (c + 1) = c + 1 := wrap64_eq_self _ (by omega) (by omega)
    have hunf : idsFrom c (k + 1) = wrap64 (c + 1) :: idsFrom (wrap64 (c + 1)) k := rfl
    rw [hunf, hw, List.pairwise_cons]
    constructor
    · intro x hx
      exact idsFrom_mem_gt k (c + 1) (by omega) (by push_cast; omega) x hx
    · exact ih (c + 1) (by omega) (by push_cast; omega)

/-- A strictly increasing integer list starting at a grows at least with
its length: some member is a plus the tail length or more. -/
theorem pairwise_lt_exists_ge : ∀ (l : List Int) (a : Int),
    List.Pairwise (fun x y => x < y) (a :: l) →
    ∃ x ∈ a :: l, a + (l.length : Int) ≤ x := by
  intro l
  induction l with
  | nil =>
    intro a _
    exact ⟨a, List.mem_cons_self a [], by simp⟩
  | cons b t ih =>
    intro a hp
    rw [List.pairwise_cons] at hp
    obtain ⟨hab, hbt⟩ := hp
    obtain ⟨x, hxm, hxge⟩ := ih b hbt
    refine ⟨x, List.mem_cons_of_mem a hxm, ?_⟩
    have h1 : a < b := hab b (List.mem_cons_self b t)
    simp only [List.length_cons]
    push_cast
    omega

/-- C8 counterexample: after two to the 63 allocations the int64 counter
wraps, so the id sequence of exactly that length is not strictly
increasing: a strictly increasing run starting at id 1 of that length
would have to reach two to the 63, which no wrapped int64 id can equal or
exceed. The claim as stated, quantifying over creation sequences of every
length, is therefore false at this length. -/
theorem engine_ids_wrap_counterexample :
    ¬ List.Pairwise (fun a b => a < b) (idsFrom 0 (2 ^ 63)) := by
  intro hp
  have hsplit : idsFrom 0 (2 ^ 63) = 1 :: idsFrom 1 (2 ^ 63 - 1) := by
    have h1 : (2 ^ 63 : Nat) = (2 ^ 63 - 1) + 1 := by norm_num
    nth_rewrite 1 [h1]
    have hunf : idsFrom 0 ((2 ^ 63 - 1) + 1)
        = wrap64 (0 + 1) :: idsFrom (wrap64 (0 + 1)) (2 ^ 63 - 1) := rfl
    have hw : wrap64 (0 + 1) = 1 := by decide
    rw [hunf, hw]
  rw [hsplit] at hp
  obtain ⟨x, hxm, hxge⟩ := pairwise_lt_exists_ge _ 1 hp
  rw [idsFrom_length] at hxge
  have hcast : ((2 ^ 63 - 1 : Nat) : Int) = 2 ^ 63 - 1 := by norm_num
  rw [hcast] at hxge
  rcases List.mem_cons.mp hxm with h1 | h2
  · rw [h1] at hxge
    omega
  · have := (idsFrom_mem_range _ _ x h2).2
    omega

/-- C8 (amended): for every creation sequence shorter than two to the 63,
which is every sequence the int64 counter can serve before wrapping, the
ids handed out by Listen, Connect and the accept loop (all drawing
atomic.AddInt64 on the same counter, which a fresh SimpleNet starts at
zero) are strictly increasing in creation order and pairwise distinct. -/
theorem engine_ids_distinct_increasing (n : Nat) (hn : (n : Int) < 2 ^ 63) :
    List.Pairwise (fun a b => a < b) (idsFrom 0 n)
    ∧ List.Pairwise (fun a b => a ≠ b) (idsFrom 0 n) := by
  have h := idsFrom_pairwise_lt n 0 le_rfl (by omega)
  exact ⟨h, h.imp (fun h2 => ne_of_lt h2)⟩

/-- Closed instance of the amended id claim at three allocations. -/
theorem engine_ids_distinct_increasing_witness :
    ((3 : Nat) : Int) < 2 ^ 63
    ∧ (List.Pairwise (fun a b => a < b) (idsFrom 0 3)
       ∧ List.Pairwise (fun a b => a ≠ b) (idsFrom 0 3)) :=
  ⟨by norm_num, engine_ids_distinct_increasing 3 (by norm_num)⟩

/-- Changing the event queue does not change listener lookup. -/
theorem getListener_set_events (s : SimpleNet) (ev : List ConnEvent) (lid : Int) :
    ({ s with events := ev }).getListener lid = s.getListener lid := rfl

/-- Reduction of one accept iteration when the bound filter rejects: the
connection object exists (id consumed) but nothing else happens. -/
theorem listeningIter_reject (s : SimpleNet) (lid : Int) (pm : IProto)
    (hfa : pm.FilterAccept (s.nextid + 1) = false) :
    s.listeningIter lid (Option.some pm)
      = ⟨({ s with nextid := s.nextid + 1 } : SimpleNet).setConn (s.nextid + 1)
          { status := Status.connected, sockOpen := true, msgChanOpen := true,
            msgChan := [], listen := Option.some lid }, false, false⟩ := by
  simp [SimpleNet.listeningIter, hfa]

/-- Reduction of one accept iteration when the connection passes the
filter or no protocol is bound. -/
theorem listeningIter_accept (s : SimpleNet) (lid : Int) (p : Option IProto)
    (hfa : acceptFlag s p = true) :
    s.listeningIter lid p
      = ⟨{ (({ s with nextid := s.nextid + 1 } : SimpleNet).setConn (s.nextid + 1)
            { status := Status.connected, sockOpen := true, msgChanOpen := true,
              msgChan := [], listen := Option.some lid }).syncAddClient (s.nextid + 1) with
          events := ((({ s with nextid := s.nextid + 1 } : SimpleNet).setConn (s.nextid + 1)
            { status := Status.connected, sockOpen := true, msgChanOpen := true,
              msgChan := [], listen := Option.some lid }).syncAddClient (s.nextid + 1)).events
            ++ [⟨EventType.newConnection, Option.some (s.nextid + 1), GoValue.nilV⟩] },
        true, true⟩ := by
  cases p with
  | none => simp [SimpleNet.listeningIter]
  | some pm =>
    have hfa2 : pm.FilterAccept (s.nextid + 1) = true := hfa
    simp [SimpleNet.listeningIter, hfa2]

/-- C9: one successful accept on a registered listener. When a protocol
is bound and its FilterAccept rejects the fresh connection, the loop
silently drops it: nothing is registered (client registry and listener
registry are untouched), no event is pushed, and neither task is spawned.
When FilterAccept accepts, or no protocol is bound, the connection id is
appended to the live sub registry of the accepting listener, exactly one
NewConnection event is pushed, and both tasks are spawned. -/
theorem listeningIter_spec (s : SimpleNet) (lid : Int) (p : Option IProto)
    (l0 : Listener) (hl : s.getListener lid = Option.some l0) (hwf : l0.conns.Wf) :
    (∀ pm, p = Option.some pm → pm.FilterAccept (s.nextid + 1) = false →
      (s.listeningIter lid p).readTaskSpawned = false
      ∧ (s.listeningIter lid p).writeTaskSpawned = false
      ∧ (s.listeningIter lid p).st.events = s.events
      ∧ (s.listeningIter lid p).st.connClient = s.connClient
      ∧ (s.listeningIter lid p).st.connServer = s.connServer)
    ∧ ((p = Option.none ∨ ∃ pm, p = Option.some pm ∧ pm.FilterAccept (s.nextid + 1) = true) →
      (s.listeningIter lid p).readTaskSpawned = true
      ∧ (s.listeningIter lid p).writeTaskSpawned = true
      ∧ (s.listeningIter lid p).st.events
          = s.events ++ [⟨EventType.newConnection, Option.some (s.nextid + 1), GoValue.nilV⟩]
      ∧ ((s.listeningIter lid p).st.getListener lid).map (fun l => l.conns.live)
          = Option.some (l0.conns.live ++ [s.nextid + 1])
      ∧ (s.listeningIter lid p).st.connClient = s.connClient) := by
  constructor
  · intro pm hpm hfa
    subst hpm
    rw [listeningIter_reject s lid pm hfa]
    exact ⟨rfl, rfl, rfl, rfl, rfl⟩
  · intro hacc
    have hfa : acceptFlag s p = true := by
      rcases hacc with h | ⟨pm, hpm, hfa2⟩
      · subst h; rfl
      · subst hpm; exact hfa2
    rw [listeningIter_accept s lid p hfa]
    have hconnAt : (({ s with nextid := s.nextid + 1 } : SimpleNet).setConn (s.nextid + 1)
        { status := Status.connected, sockOpen := true, msgChanOpen := true,
          msgChan := [], listen := Option.some lid }).conn (s.nextid + 1)
        = { status := Status.connected, sockOpen := true, msgChanOpen := true,
            msgChan := [], listen := Option.some lid } := by
      unfold SimpleNet.setConn
      simp
    have hsync : (({ s with nextid := s.nextid + 1 } : SimpleNet).setConn (s.nextid + 1)
        { status := Status.connected, sockOpen := true, msgChanOpen := true,
          msgChan := [], listen := Option.some lid }).syncAddClient (s.nextid + 1)
        = (({ s with nextid := s.nextid + 1 } : SimpleNet).setConn (s.nextid + 1)
            { status := Status.connected, sockOpen := true, msgChanOpen := true,
              msgChan := [], listen := Option.some lid }).updateListener lid
            (fun l => { l with conns := l.conns.push (s.nextid + 1) }) := by
      unfold SimpleNet.syncAddClient
      rw [hconnAt]
    rw [hsync]
    refine ⟨rfl, rfl, rfl, ?_, rfl⟩
    have hup := getListener_updateListener
      (({ s with nextid := s.nextid + 1 } : SimpleNet).setConn (s.nextid + 1)
        { status := Status.connected, sockOpen := true, msgChanOpen := true,
          msgChan := [], listen := Option.some lid }) lid lid
      (fun l => { l with conns := l.conns.push (s.nextid + 1) }) (fun l => rfl)
    have hgs : (({ s with nextid := s.nextid + 1 } : SimpleNet).setConn (s.nextid + 1)
        { status := Status.connected, sockOpen := true, msgChanOpen := true,
          msgChan := [], listen := Option.some lid }).getListener lid
        = s.getListener lid := rfl
    have hid : l0.id = lid := by
      have := List.find?_some hl
      simpa using this
    rw [getListener_set_events, hup, hgs, hl]
    simp [hid, Reg.push_live l0.conns (s.nextid + 1) hwf]

/-- Closed instance of listeningIter_spec on an engine with one empty
listener: with a protocol rejecting every accept nothing is registered,
pushed, or spawned; with no protocol bound the fresh id 21 is registered
under the listener, one NewConnection event is pushed, and both tasks
are spawned. -/
theorem listeningIter_spec_witness :
    ((netL.listeningIter 10 (Option.some protoNoAccept)).readTaskSpawned = false
      ∧ (netL.listeningIter 10 (Option.some protoNoAccept)).writeTaskSpawned = false
      ∧ (netL.listeningIter 10 (Option.some protoNoAccept)).st.events = netL.events
      ∧ (netL.listeningIter 10 (Option.some protoNoAccept)).st.connClient = netL.connClient
      ∧ (netL.listeningIter 10 (Option.some protoNoAccept)).st.connServer = netL.connServer)
    ∧ ((netL.listeningIter 10 Option.none).readTaskSpawned = true
      ∧ (netL.listeningIter 10 Option.none).writeTaskSpawned = true
      ∧ (netL.listeningIter 10 Option.none).st.events
          = netL.events ++ [⟨EventType.newConnection, Option.some 21, GoValue.nilV⟩]
      ∧ ((netL.listeningIter 10 Option.none).st.getListener 10).map (fun l => l.conns.live)
          = Option.some ([] ++ [21])
      ∧ (netL.listeningIter 10 Option.none).st.connClient = netL.connClient) :=
  ⟨(listeningIter_spec netL 10 (Option.some protoNoAccept)
      ⟨10, Status.listenning, true, ⟨[], 0⟩⟩ rfl (by exact Nat.le_refl 0)).1 protoNoAccept rfl rfl,
   (listeningIter_spec netL 10 Option.none
      ⟨10, Status.listenning, true, ⟨[], 0⟩⟩ rfl (by exact Nat.le_refl 0)).2 (Or.inl rfl)⟩

/-- Changing the event queue does not change the connection store. -/
theorem conn_set_events (s : SimpleNet) (ev : List ConnEvent) :
    ({ s with events := ev }).conn = s.conn := rfl

/-- Changing the event queue does not change registry lookup. -/
theorem regOf_set_events (s : SimpleNet) (ev : List ConnEvent) (cid : Int) :
    ({ s with events := ev }).regOf cid = s.regOf cid := rfl

/-- Reduction of checkConnErr on an error when the engine is destroyed:
the error is returned, nothing else happens. -/
theorem checkConnErr_destroyed (s : SimpleNet) (count : Nat) (e : GoErr) (cid : Int)
    (hd : s.destroy = true) :
    s.checkConnErr count (Option.some e) cid = (s, Option.some e) := by
  simp [SimpleNet.checkConnErr, hd]

/-- Reduction of checkConnErr on an error for a live engine and a still
Connected connection: teardown plus one pushed event. -/
theorem checkConnErr_teardown (s : SimpleNet) (count : Nat) (e : GoErr) (cid : Int)
    (hd : s.destroy = false) (hst : (s.conn cid).status = Status.connected) :
    s.checkConnErr count (Option.some e) cid
      = ({ ((s.setConn cid
            { (s.conn cid) with
              status := Status.broken
              msgChanOpen := false
              sockOpen := false }).syncDelClient cid) with
          events := ((s.setConn cid
            { (s.conn cid) with
              status := Status.broken
              msgChanOpen := false
              sockOpen := false }).syncDelClient cid).events
            ++ [⟨if e = GoErr.eof then EventType.connectionClosed
                  else EventType.connectionError, Option.some cid, GoValue.err e⟩] },
         Option.some e) := by
  simp [SimpleNet.checkConnErr, hd, hst]

/-- Reduction of checkConnErr on an error for a live engine when the
connection is no longer Connected: only the event is pushed. -/
theorem checkConnErr_noTeardown (s : SimpleNet) (count : Nat) (e : GoErr) (cid : Int)
    (hd : s.destroy = false) (hst : (s.conn cid).status ≠ Status.connected) :
    s.checkConnErr count (Option.some e) cid
      = ({ s with events := s.events
            ++ [⟨if e = GoErr.eof then EventType.connectionClosed
                  else EventType.connectionError, Option.some cid, GoValue.err e⟩] },
         Option.some e) := by
  simp [SimpleNet.checkConnErr, hd, hst]

/-- C4: the shared error handler on an observed I/O error. With the
destroy flag set the handler returns the error with no event and no state
change, ending the calling task silently. Otherwise it returns the error
(ending the task), pushes exactly one event whose kind is
ConnectionClosed for io.EOF and ConnectionError for any other error with
the error as payload, and, when the connection is still Connected, closes
its msgChan and socket, sets it Broken and removes it from the live slice
of its registry (the registry is well formed and holds the id at most
once); when it is not Connected the stores are untouched. -/
theorem checkConnErr_spec (s : SimpleNet) (count : Nat) (e : GoErr) (cid : Int)
    (hwf : (s.regOf cid).Wf) (hcnt : (s.regOf cid).live.count cid ≤ 1) :
    (s.destroy = true → s.checkConnErr count (Option.some e) cid = (s, Option.some e))
    ∧ (s.destroy = false →
        (s.checkConnErr count (Option.some e) cid).2 = Option.some e
        ∧ (s.checkConnErr count (Option.some e) cid).1.events
            = s.events ++ [⟨if e = GoErr.eof then EventType.connectionClosed
                else EventType.connectionError, Option.some cid, GoValue.err e⟩]
        ∧ ((s.conn cid).status = Status.connected →
            ((s.checkConnErr count (Option.some e) cid).1.conn cid).status = Status.broken
            ∧ ((s.checkConnErr count (Option.some e) cid).1.conn cid).msgChanOpen = false
            ∧ ((s.checkConnErr count (Option.some e) cid).1.conn cid).sockOpen = false
            ∧ cid ∉ ((s.checkConnErr count (Option.some e) cid).1.regOf cid).live)
        ∧ ((s.conn cid).status ≠ Status.connected →
            (s.checkConnErr count (Option.some e) cid).1.conn = s.conn
            ∧ (s.checkConnErr count (Option.some e) cid).1.connClient = s.connClient
            ∧ (s.checkConnErr count (Option.some e) cid).1.connServer = s.connServer)) := by
  constructor
  · intro hd
    exact checkConnErr_destroyed s count e cid hd
  · intro hd
    by_cases hst : (s.conn cid).status = Status.connected
    · rw [checkConnErr_teardown s count e cid hd hst]
      have hconn : ((s.setConn cid
          { (s.conn cid) with
            status := Status.broken
            msgChanOpen := false
            sockOpen := false }).syncDelClient cid).conn cid
          = { (s.conn cid) with
              status := Status.broken
              msgChanOpen := false
              sockOpen := false } := by
        rw [(syncDelClient_parts _ _).2.1]
        unfold SimpleNet.setConn
        simp
      refine ⟨rfl, ?_, ?_, ?_⟩
      · show ((s.setConn cid
            { (s.conn cid) with
              status := Status.broken
              msgChanOpen := false
              sockOpen := false }).syncDelClient cid).events ++ _ = _
        rw [(syncDelClient_parts _ _).1]
        rfl
      · intro _
        refine ⟨?_, ?_, ?_, ?_⟩
        · rw [conn_set_events, hconn]
        · rw [conn_set_events, hconn]
        · rw [conn_set_events, hconn]
        · rw [regOf_set_events, regOf_teardown s cid
            { (s.conn cid) with
              status := Status.broken
              msgChanOpen := false
              sockOpen := false } rfl,
            Reg.syncDel_live (s.regOf cid) cid hwf]
          exact not_mem_erase_of_count_le_one cid (s.regOf cid).live hcnt
      · intro hns
        exact absurd hst hns
    · rw [checkConnErr_noTeardown s count e cid hd hst]
      exact ⟨rfl, rfl, fun hc => absurd hc hst, fun _ => ⟨rfl, rfl, rfl⟩⟩

/-- Closed instance of checkConnErr_spec: io.EOF on the live Connected
client connection of netOne returns the error, pushes one
ConnectionClosed event carrying it, tears the connection down and leaves
the client registry without it. -/
theorem checkConnErr_spec_witness :
    (netOne.checkConnErr 0 (Option.some GoErr.eof) 1).2 = Option.some GoErr.eof
    ∧ (netOne.checkConnErr 0 (Option.some GoErr.eof) 1).1.events
        = netOne.events ++ [⟨EventType.connectionClosed, Option.some 1, GoValue.err GoErr.eof⟩]
    ∧ ((netOne.checkConnErr 0 (Option.some GoErr.eof) 1).1.conn 1).status = Status.broken
    ∧ ((netOne.checkConnErr 0 (Option.some GoErr.eof) 1).1.conn 1).msgChanOpen = false
    ∧ ((netOne.checkConnErr 0 (Option.some GoErr.eof) 1).1.conn 1).sockOpen = false
    ∧ 1 ∉ ((netOne.checkConnErr 0 (Option.some GoErr.eof) 1).1.regOf 1).live := by
  have h := (checkConnErr_spec netOne 0 GoErr.eof 1
    (by exact Nat.le_refl 1) (by decide)).2 rfl
  obtain ⟨h1, h2, h3, h4⟩ := h
  have h5 := h3 rfl
  exact ⟨h1, h2, h5.1, h5.2.1, h5.2.2.1, h5.2.2.2⟩
